import Mathlib

/-!
Shallow embedding of the regex engine in `src/app/main.py`.

The subject line and the pattern are modelled as `List Char`.  A Python
`Set[MatchState]` is modelled as a `List MatchState` (duplication is
irrelevant: the code only ever observes emptiness of these sets and the
fields of their elements).  The Python `while` loops inside
`PlusMatcher.match` and `StarMatcher.match`, and the recursive descent of
`PatternParser`, can diverge respectively recurse unboundedly, so every
evaluation function takes a fuel argument and returns `none` when the fuel
runs out; `none` therefore models "the Python program has not returned
yet", and a result that holds for every fuel models divergence.
-/

namespace Grep

/-- `MatchState` from `src/app/main.py`: the current offset into the
subject and the capture environment.  The Python `dict` mapping group id to
captured text is modelled as an association list whose head is the most
recent binding; `lookupGroup` returns the most recent binding, exactly like
a `dict` in which a later assignment overwrites an earlier one. -/
structure MatchState where
  pos : Nat
  groups : List (Nat × List Char)
deriving DecidableEq

/-- Lookup in the modelled capture dictionary (first, i.e. newest, binding
wins). -/
def lookupGroup : List (Nat × List Char) → Nat → Option (List Char)
  | [], _ => none
  | p :: rest, k => if p.1 = k then some p.2 else lookupGroup rest k

/-- The Python slice `line[a:b]`. -/
def strSlice (line : List Char) (a b : Nat) : List Char :=
  (line.drop a).take (b - a)

/-- The matcher AST: one constructor per `Matcher` subclass of
`src/app/main.py` (`LiteralMatcher`, `DigitMatcher`, `WordMatcher`,
`SequenceMatcher`, `AlternationMatcher`, `OptionalMatcher`, `PlusMatcher`,
`StarMatcher`, `AnchorStartMatcher`, `AnchorEndMatcher`, `AnyMatcher`,
`CharClassMatcher`, `CaptureGroupMatcher`, `BackreferenceMatcher`). -/
inductive Matcher where
  | lit (c : Char)
  | digit
  | word
  | seq (ms : List Matcher)
  | alt (l r : Matcher)
  | opt (m : Matcher)
  | plus (m : Matcher)
  | star (m : Matcher)
  | anchorStart
  | anchorEnd
  | any
  | charClass (cs : List Char) (neg : Bool)
  | capture (m : Matcher) (gid : Nat)
  | backref (gid : Nat)

/-- One round of `next_states |= matcher.match(line, st)` over a set of
states, as in the loops of `SequenceMatcher.match`, `PlusMatcher.match` and
`StarMatcher.match`; `none` if any component call runs out of fuel. -/
def stepAll (step : MatchState → Option (List MatchState)) :
    List MatchState → Option (List MatchState)
  | [] => some []
  | s :: ss =>
    match step s, stepAll step ss with
    | some l1, some l2 => some (l1 ++ l2)
    | _, _ => none

/-- The `while last_iter_states:` loop of `PlusMatcher.match` (entered with
a non-empty state set): step the current frontier, stop when the frontier
dies out, otherwise accumulate and continue.  Fuel bounds the number of
iterations. -/
def loopPlus (step : MatchState → Option (List MatchState)) :
    Nat → List MatchState → List MatchState → Option (List MatchState)
  | 0, _, _ => none
  | f + 1, acc, cur =>
    match stepAll step cur with
    | none => none
    | some next => if next = [] then some acc else loopPlus step f (acc ++ next) next

/-- The `while current_states:` loop of `StarMatcher.match`.  Note that the
loop exits only when the frontier is empty; the step result is accumulated
unconditionally first. -/
def loopStar (step : MatchState → Option (List MatchState)) :
    Nat → List MatchState → List MatchState → Option (List MatchState)
  | 0, _, _ => none
  | f + 1, acc, cur =>
    if cur = [] then some acc
    else
      match stepAll step cur with
      | none => none
      | some next => loopStar step f (acc ++ next) next

/-- The loop of `SequenceMatcher.match`: thread the state set through the
sub-matchers in order.  (The Python early `break` on an empty set is
behaviourally identical to continuing, since stepping an empty set yields
an empty set without calling the sub-matcher.) -/
def seqGo (step1 : Matcher → MatchState → Option (List MatchState)) :
    List Matcher → List MatchState → Option (List MatchState)
  | [], states => some states
  | m :: rest, states =>
    match stepAll (step1 m) states with
    | none => none
    | some next => seqGo step1 rest next

/-- `Matcher.match` of `src/app/main.py`, fuel-indexed.  Each constructor
case is the direct transcription of the corresponding `match` method. -/
def matchM : Nat → Matcher → List Char → MatchState → Option (List MatchState)
  | 0, _, _, _ => none
  | f + 1, m, line, st =>
    match m with
    | .lit c =>
      some (match line.get? st.pos with
        | some ch => if ch = c then [⟨st.pos + 1, st.groups⟩] else []
        | none => [])
    | .digit =>
      some (match line.get? st.pos with
        | some ch => if ch.isDigit then [⟨st.pos + 1, st.groups⟩] else []
        | none => [])
    | .word =>
      some (match line.get? st.pos with
        | some ch => if ch.isAlphanum || ch == '_' then [⟨st.pos + 1, st.groups⟩] else []
        | none => [])
    | .seq ms => seqGo (fun m2 s => matchM f m2 line s) ms [st]
    | .alt l r =>
      match matchM f l line st, matchM f r line st with
      | some a, some b => some (a ++ b)
      | _, _ => none
    | .opt m1 =>
      match matchM f m1 line st with
      | none => none
      | some res => some (res ++ [⟨st.pos, st.groups⟩])
    | .plus m1 =>
      match matchM f m1 line st with
      | none => none
      | some states =>
        if states = [] then some []
        else loopPlus (fun s => matchM f m1 line s) f states states
    | .star m1 => loopStar (fun s => matchM f m1 line s) f [st] [st]
    | .anchorStart => some (if st.pos = 0 then [⟨0, st.groups⟩] else [])
    | .anchorEnd => some (if st.pos = line.length then [⟨st.pos, st.groups⟩] else [])
    | .any => some (if st.pos < line.length then [⟨st.pos + 1, st.groups⟩] else [])
    | .charClass cs neg =>
      some (match line.get? st.pos with
        | some ch =>
          if (if neg then !(cs.contains ch) else cs.contains ch)
          then [⟨st.pos + 1, st.groups⟩] else []
        | none => [])
    | .capture m1 gid =>
      match matchM f m1 line st with
      | none => none
      | some res =>
        some (res.map (fun ns => ⟨ns.pos, (gid, strSlice line st.pos ns.pos) :: ns.groups⟩))
    | .backref gid =>
      some (match lookupGroup st.groups gid with
        | none => []
        | some gtext =>
          if st.pos + gtext.length ≤ line.length ∧
              strSlice line st.pos (st.pos + gtext.length) = gtext
          then [⟨st.pos + gtext.length, st.groups⟩] else [])

/-- Result type of the modelled parser routines: the produced matcher, the
remaining input, and the updated `next_group_id`; `Except` carries the
`ValueError` message, the outer `Option` is fuel exhaustion. -/
abbrev PRes := Option (Except String (Matcher × List Char × Nat))

/-- The digit-collection loop inside `parse_atom` for backreferences:
`while self.peek() is not None and self.peek().isdigit(): digits += self.advance()`. -/
def collectDigits : List Char → (List Char × List Char)
  | [] => ([], [])
  | c :: rest =>
    if c.isDigit then
      match collectDigits rest with
      | (ds, r) => (c :: ds, r)
    else ([], c :: rest)

/-- Python `int(digits)` for a decimal digit string. -/
def digitsVal (ds : List Char) : Nat :=
  ds.foldl (fun n c => 10 * n + (c.toNat - 48)) 0

/-- The scanning loop of `parse_charset`: collect class members (a `\`
escapes the next character) up to the closing `]`; a missing `]` is the
`ValueError` "Expected closing bracket ']'". -/
def scanClass (acc : List Char) : List Char → Except String (List Char × List Char)
  | [] => .error "Expected closing bracket ']'"
  | ch :: rest =>
    if ch = ']' then .ok (acc, rest)
    else if ch = '\\' then
      match rest with
      | [] => .error "Expected closing bracket ']'"
      | c2 :: rest2 => scanClass (acc ++ [c2]) rest2
    else scanClass (acc ++ [ch]) rest

/-- `parse_charset` after the leading `[` has been consumed: optional `^`
negation, then the member scan. -/
def parseClassTail (rest : List Char) (g : Nat) : PRes :=
  let nb : Bool × List Char :=
    match rest with
    | c2 :: r2 => if c2 = '^' then (true, r2) else (false, rest)
    | [] => (false, rest)
  match scanClass [] nb.2 with
  | .error e => some (.error e)
  | .ok (cs, rest3) => some (.ok (.charClass cs nb.1, rest3, g))

/-- `parse_atom` of `PatternParser`, parameterised by the expression parser
`pe` used for the body of a group (Python recurses into
`parse_expression`; the fuel lives in that argument). -/
def parseAtomF (pe : List Char → Nat → PRes) (inp : List Char) (g : Nat) : PRes :=
  match inp with
  | [] => some (.error "Unexpected end of pattern")
  | ch :: rest =>
    if ch = '^' then some (.ok (.anchorStart, rest, g))
    else if ch = '$' then some (.ok (.anchorEnd, rest, g))
    else if ch = '.' then some (.ok (.any, rest, g))
    else if ch = '\\' then
      match rest with
      | [] => some (.error "Incomplete escape sequence")
      | c :: rest2 =>
        if c = 'd' then some (.ok (.digit, rest2, g))
        else if c = 'w' then some (.ok (.word, rest2, g))
        else if c.isDigit then
          match collectDigits rest2 with
          | (ds, rest3) => some (.ok (.backref (digitsVal (c :: ds)), rest3, g))
        else some (.ok (.lit c, rest2, g))
    else if ch = '[' then parseClassTail rest g
    else if ch = '(' then
      match pe rest (g + 1) with
      | none => none
      | some (.error e) => some (.error e)
      | some (.ok (body, inp2, g2)) =>
        match inp2 with
        | ')' :: rest2 => some (.ok (.capture body g, rest2, g2))
        | _ => some (.error "Expected closing parenthesis ')'")
    else some (.ok (.lit ch, rest, g))

/-- `parse_factor`: an atom optionally followed by `?`, `+` or `*`. -/
def parseFactorF (pa : List Char → Nat → PRes) (inp : List Char) (g : Nat) : PRes :=
  match pa inp g with
  | none => none
  | some (.error e) => some (.error e)
  | some (.ok (atom, inp1, g1)) =>
    match inp1 with
    | [] => some (.ok (atom, [], g1))
    | q :: rest =>
      if q = '?' then some (.ok (.opt atom, rest, g1))
      else if q = '+' then some (.ok (.plus atom, rest, g1))
      else if q = '*' then some (.ok (.star atom, rest, g1))
      else some (.ok (atom, q :: rest, g1))

/-- The epilogue of `parse_term`: no part is the `ValueError`
"Empty term in pattern", one part is returned bare, several parts become a
`SequenceMatcher`. -/
def parseTermFinish (parts : List Matcher) (inp : List Char) (g : Nat) : PRes :=
  match parts with
  | [] => some (.error "Empty term in pattern")
  | [m] => some (.ok (m, inp, g))
  | _ => some (.ok (.seq parts, inp, g))

/-- The factor-collecting loop of `parse_term` (see `parseTermFinish` for
its epilogue). -/
def parseTermGo (pf : List Char → Nat → PRes) :
    Nat → List Matcher → List Char → Nat → PRes
  | 0, _, _, _ => none
  | f + 1, parts, inp, g =>
    match inp with
    | [] => parseTermFinish parts [] g
    | c :: rest =>
      if c = '|' ∨ c = ')' then parseTermFinish parts (c :: rest) g
      else
        match pf (c :: rest) g with
        | none => none
        | some (.error e) => some (.error e)
        | some (.ok (m, inp2, g2)) => parseTermGo pf f (parts ++ [m]) inp2 g2

/-- The `while self.peek() == "|":` loop of `parse_expression`, folding the
alternatives left-associatively into `AlternationMatcher`s. -/
def parseExprGo (pt : List Char → Nat → PRes) :
    Nat → Matcher → List Char → Nat → PRes
  | 0, _, _, _ => none
  | f + 1, left, inp, g =>
    match inp with
    | [] => some (.ok (left, [], g))
    | c :: rest =>
      if c = '|' then
        match pt rest g with
        | none => none
        | some (.error e) => some (.error e)
        | some (.ok (right, inp2, g2)) => parseExprGo pt f (.alt left right) inp2 g2
      else some (.ok (left, c :: rest, g))

/-- `parse_expression`.  The fuel decreases at each group-nesting level
(the recursion through `parse_atom`); the term and alternation loops are
bounded by the remaining input length, which suffices because every factor
and every `|` consumes at least one character. -/
def parseExpression : Nat → List Char → Nat → PRes
  | 0, _, _ => none
  | f + 1, inp, g =>
    match parseTermGo (parseFactorF (parseAtomF (parseExpression f))) (inp.length + 1) [] inp g with
    | none => none
    | some (.error e) => some (.error e)
    | some (.ok (left, inp1, g1)) =>
      parseExprGo
        (fun i g2 => parseTermGo (parseFactorF (parseAtomF (parseExpression f))) (i.length + 1) [] i g2)
        (inp1.length + 1) left inp1 g1

/-- `PatternParser.parse`: parse a whole expression starting with
`next_group_id = 1` and reject trailing characters.  The initial fuel
`10 * length + 10` dominates the group-nesting depth of any pattern. -/
def parse (p : List Char) : Option (Except String Matcher) :=
  match parseExpression (10 * p.length + 10) p 1 with
  | none => none
  | some (.error e) => some (.error e)
  | some (.ok (m, rest, _)) =>
    if rest = [] then some (.ok m)
    else some (.error "Unexpected characters at end of pattern")

/-- The `for start_pos in range(n + 1)` loop of `match_pattern`: report
`true` at the first offset whose attempt yields a non-empty state set. -/
def searchGo (mfuel : Nat) (m : Matcher) (line : List Char) : List Nat → Option Bool
  | [] => some false
  | i :: rest =>
    match matchM mfuel m line ⟨i, []⟩ with
    | none => none
    | some [] => searchGo mfuel m line rest
    | some (_ :: _) => some true

/-- The search phase of `match_pattern`: try every start offset from `0`
through `length line` inclusive. -/
def searchM (mfuel : Nat) (m : Matcher) (line : List Char) : Option Bool :=
  searchGo mfuel m line (List.range (line.length + 1))

/-- `match_pattern` of `src/app/main.py`: compile the pattern, return
`False` if compilation raises `ValueError`, otherwise search. -/
def match_pattern (mfuel : Nat) (line pat : List Char) : Option Bool :=
  match parse pat with
  | none => none
  | some (.error _) => some false
  | some (.ok m) => searchM mfuel m line

/-! ## Helper lemmas -/

/-- If one step of the `PlusMatcher` loop maps the state `s0` back to
exactly `{s0}`, the loop never terminates: it returns `none` (fuel
exhaustion) for every fuel. -/
theorem loopPlus_fix (step : MatchState → Option (List MatchState)) (s0 : MatchState)
    (h : step s0 = some [s0]) :
    ∀ (fuel : Nat) (acc : List MatchState), loopPlus step fuel acc [s0] = none := by
  intro fuel
  induction fuel with
  | zero => intro acc; rfl
  | succ g ih =>
    intro acc
    have hs : stepAll step [s0] = some [s0] := by
      simp [stepAll, h]
    simp [loopPlus, hs, ih]

/-- `PlusMatcher(AnchorStartMatcher).match` on the empty line at offset 0
runs out of any amount of fuel: the Python loop diverges because the
zero-width anchor reproduces the same state forever. -/
theorem plusAnchor_none (f : Nat) :
    matchM f (.plus .anchorStart) [] ⟨0, []⟩ = none := by
  match f with
  | 0 => rfl
  | 1 => rfl
  | g + 2 =>
    have hstep : (fun s => matchM (g + 1) Matcher.anchorStart [] s) ⟨0, []⟩
        = some [⟨0, []⟩] := rfl
    show loopPlus (fun s => matchM (g + 1) Matcher.anchorStart [] s)
        (g + 1) [⟨0, []⟩] [⟨0, []⟩] = none
    exact loopPlus_fix _ ⟨0, []⟩ hstep (g + 1) [⟨0, []⟩]

/-- Correctness of the start-offset loop: when it terminates with verdict
`b`, the verdict is `true` exactly when some tried offset yields a
non-empty set of completed attempts. -/
theorem searchGo_spec (mfuel : Nat) (m : Matcher) (line : List Char) :
    ∀ (starts : List Nat) (b : Bool),
      searchGo mfuel m line starts = some b →
      (b = true ↔ ∃ i ∈ starts, ∃ l, matchM mfuel m line ⟨i, []⟩ = some l ∧ l ≠ []) := by
  intro starts
  induction starts with
  | nil =>
    intro b hb
    have hb' : b = false := by
      have : (some false : Option Bool) = some b := by
        simpa [searchGo] using hb
      simpa using this.symm
    subst hb'
    simp
  | cons i rest ih =>
    intro b hb
    cases hmi : matchM mfuel m line ⟨i, []⟩ with
    | none => simp [searchGo, hmi] at hb
    | some l =>
      cases l with
      | nil =>
        have hb' : searchGo mfuel m line rest = some b := by
          simpa [searchGo, hmi] using hb
        have := ih b hb'
        rw [this]
        constructor
        · rintro ⟨j, hj, hlj⟩
          exact ⟨j, List.mem_cons_of_mem _ hj, hlj⟩
        · rintro ⟨j, hj, lj, hlj, hne⟩
          rcases List.mem_cons.mp hj with hji | hjr
          · subst hji
            rw [hmi] at hlj
            cases hlj
            exact absurd rfl hne
          · exact ⟨j, hjr, lj, hlj, hne⟩
      | cons x xs =>
        have hb' : b = true := by
          have : (some true : Option Bool) = some b := by
            simpa [searchGo, hmi] using hb
          simpa using this.symm
        subst hb'
        simp only [true_iff]
        exact ⟨i, List.mem_cons_self _ _, x :: xs, hmi, List.cons_ne_nil _ _⟩

/-! ## Claims -/

/-- Claim C1 (corrected), counterexample to the claim as stated: the claim
says that at an in-bounds offset whose character is a newline, `AnyChar`
produces no candidate; but on the subject consisting of a single newline,
at offset 0, `AnyMatcher.match` produces exactly one candidate at offset 1. -/
theorem C1_counterexample :
    matchM 5 Matcher.any ['\n'] ⟨0, []⟩ = some [⟨1, []⟩] ∧
    matchM 5 Matcher.any ['\n'] ⟨0, []⟩ ≠ some [] := by
  refine ⟨rfl, fun h => ?_⟩
  have h2 : (some [(⟨1, []⟩ : MatchState)] : Option (List MatchState)) = some [] := h
  simp at h2

/-- Claim C1 (amended): for every subject and offset, `AnyMatcher.match`
matches any character whatsoever — including newline: at an in-bounds
offset it produces exactly one candidate at `offset + 1` with the capture
environment unchanged, and at an out-of-bounds offset it produces no
candidate. -/
theorem C1_theorem (fuel : Nat) (line : List Char) (st : MatchState) :
    matchM (fuel + 1) Matcher.any line st =
      some (if st.pos < line.length then [⟨st.pos + 1, st.groups⟩] else []) := rfl

/-- Claim C2 (code bug): the spec promises termination for well-formed,
non-adversarial inputs, but `search(compile("^+"), "")` never terminates:
`PlusMatcher.match` loops forever because the zero-width `^` reproduces the
same state on every iteration and the loop only exits on an empty frontier.
In the fuel model, the verdict is `none` (still running) for every fuel. -/
theorem C2_theorem (mfuel : Nat) :
    match_pattern mfuel [] ['^', '+'] = none := by
  have hp : parse ['^', '+'] = some (.ok (.plus .anchorStart)) := rfl
  show searchGo mfuel (.plus .anchorStart) [] (List.range 1) = none
  simp [List.range_succ, searchGo, plusAnchor_none mfuel]

/-- Claim C3 (corrected), counterexample to the claim as stated: the
pattern consisting of `+` alone does not fail compilation — it compiles
successfully (there is no `DanglingQuantifier` error anywhere in the code). -/
theorem C3_counterexample :
    parse ['+'] = some (.ok (.lit '+')) := rfl

/-- Claim C3 (amended): a quantifier character with no preceding atom is
parsed by `parse_atom`'s final catch-all as a literal character, so the
patterns `+` and `?` alone compile to literal matchers instead of raising
an error. -/
theorem C3_theorem :
    parse ['+'] = some (.ok (.lit '+')) ∧
    parse ['?'] = some (.ok (.lit '?')) := ⟨rfl, rfl⟩

/-- Claim C4 (corrected), counterexample to the claim as stated: a trailing
`|` (empty second branch, pattern `a|`) is not accepted — `parse_term`
raises `ValueError("Empty term in pattern")`. -/
theorem C4_counterexample :
    parse ['a', '|'] = some (.error "Empty term in pattern") := rfl

/-- Claim C4 (amended): an empty alternative branch is a compile-time
error, not an accepted pattern: both `a|` and `a(|b)c` fail with
`ValueError("Empty term in pattern")` because `parse_term` rejects a term
with zero factors. -/
theorem C4_theorem :
    parse ['a', '|'] = some (.error "Empty term in pattern") ∧
    parse ['a', '(', '|', 'b', ')', 'c'] = some (.error "Empty term in pattern") :=
  ⟨rfl, rfl⟩

/-- Claim C6 (confirmed): on pattern `((a)(b))`, group ids are assigned in
left-paren pre-order (outer group 1, then 2, then 3), and matching against
"ab" succeeds binding group 1 to "ab", group 2 to "a" and group 3 to "b". -/
theorem C6_theorem :
    parse ['(', '(', 'a', ')', '(', 'b', ')', ')'] =
      some (.ok (.capture (.seq [.capture (.lit 'a') 2, .capture (.lit 'b') 3]) 1)) ∧
    matchM 30 (.capture (.seq [.capture (.lit 'a') 2, .capture (.lit 'b') 3]) 1)
        ['a', 'b'] ⟨0, []⟩ =
      some [⟨2, [(1, ['a', 'b']), (3, ['b']), (2, ['a'])]⟩] ∧
    lookupGroup [(1, ['a', 'b']), (3, ['b']), (2, ['a'])] 1 = some ['a', 'b'] ∧
    lookupGroup [(1, ['a', 'b']), (3, ['b']), (2, ['a'])] 2 = some ['a'] ∧
    lookupGroup [(1, ['a', 'b']), (3, ['b']), (2, ['a'])] 3 = some ['b'] ∧
    match_pattern 30 ['a', 'b'] ['(', '(', 'a', ')', '(', 'b', ')', ')'] = some true :=
  ⟨rfl, rfl, rfl, rfl, rfl, rfl⟩

/-- Claim C5 (confirmed): for a terminating search, the verdict is `true`
iff some start offset between `0` and `length subject` inclusive yields a
non-empty set of completed attempts (no completed attempt is required to
consume the rest of the subject); and concretely `a(b|c)d` matches "abd"
and "acd" but not "ad". -/
theorem C5_theorem :
    (∀ (mfuel : Nat) (m : Matcher) (line : List Char) (b : Bool),
        searchM mfuel m line = some b →
        (b = true ↔ ∃ i, i ≤ line.length ∧
            ∃ l, matchM mfuel m line ⟨i, []⟩ = some l ∧ l ≠ [])) ∧
    match_pattern 30 ['a', 'b', 'd'] ['a', '(', 'b', '|', 'c', ')', 'd'] = some true ∧
    match_pattern 30 ['a', 'c', 'd'] ['a', '(', 'b', '|', 'c', ')', 'd'] = some true ∧
    match_pattern 30 ['a', 'd'] ['a', '(', 'b', '|', 'c', ')', 'd'] = some false := by
  refine ⟨?_, rfl, rfl, rfl⟩
  intro mfuel m line b h
  have h2 := searchGo_spec mfuel m line (List.range (line.length + 1)) b h
  rw [h2]
  constructor
  · rintro ⟨i, hi, hl⟩
    exact ⟨i, Nat.lt_succ_iff.mp (List.mem_range.mp hi), hl⟩
  · rintro ⟨i, hi, hl⟩
    exact ⟨i, List.mem_range.mpr (Nat.lt_succ_iff.mpr hi), hl⟩

/-- Witness for Claim C5: instantiating the quantified part at the
single-literal pattern `a` and the subject "a". -/
theorem C5_witness :
    (true = true ↔ ∃ i, i ≤ (['a'] : List Char).length ∧
        ∃ l, matchM 30 (.lit 'a') ['a'] ⟨i, []⟩ = some l ∧ l ≠ []) :=
  C5_theorem.1 30 (.lit 'a') ['a'] true rfl

/-- The digit-collection loop consumes an all-digit input completely. -/
theorem collectDigits_all (ds : List Char) (h : ∀ x ∈ ds, x.isDigit = true) :
    collectDigits ds = (ds, []) := by
  induction ds with
  | nil => rfl
  | cons c rest ih =>
    have hc : c.isDigit = true := h c (List.mem_cons_self _ _)
    have hr := ih (fun x hx => h x (List.mem_cons_of_mem _ hx))
    simp [collectDigits, hc, hr]

/-- A pattern consisting of a backslash followed by any non-empty decimal
digit string parses (with one level of fuel to spare) to a
`BackreferenceMatcher` with the decimal value as group id. -/
theorem parseExpression_backref (f : Nat) (c : Char) (tail : List Char)
    (hc : c.isDigit = true) (ht : ∀ x ∈ tail, x.isDigit = true) :
    parseExpression (f + 1) ('\\' :: c :: tail) 1 =
      some (.ok (.backref (digitsVal (c :: tail)), [], 1)) := by
  have hcd : ¬(c = 'd') := fun hEq => by
    rw [hEq] at hc; exact absurd hc (by decide)
  have hcw : ¬(c = 'w') := fun hEq => by
    rw [hEq] at hc; exact absurd hc (by decide)
  have hcol := collectDigits_all tail ht
  simp [parseExpression, parseTermGo, parseFactorF, parseAtomF, parseTermFinish,
    parseExprGo, hc, hcd, hcw, hcol]

/-- Lifting `parseExpression_backref` through the top-level `parse`. -/
theorem parse_backref_ok (c : Char) (tail : List Char)
    (hc : c.isDigit = true) (ht : ∀ x ∈ tail, x.isDigit = true) :
    parse ('\\' :: c :: tail) = some (.ok (.backref (digitsVal (c :: tail)))) := by
  have hlen : ('\\' :: c :: tail).length = tail.length + 1 + 1 := by simp
  unfold parse
  rw [hlen]
  have hf : 10 * (tail.length + 1 + 1) + 10 = (10 * (tail.length + 1 + 1) + 9) + 1 := rfl
  rw [hf]
  rw [parseExpression_backref (10 * (tail.length + 1 + 1) + 9) c tail hc ht]
  rfl

/-- Claim C7 (confirmed): a backreference whose group id is unbound in the
current capture environment yields no candidate state (the attempt fails),
and a backreference is never a compile-time error: for any decimal digit
string, the pattern `\digits` compiles to a `BackreferenceMatcher`. -/
theorem C7_theorem (fuel gid : Nat) (line : List Char) (st : MatchState)
    (c : Char) (tail : List Char)
    (h : lookupGroup st.groups gid = none)
    (hc : c.isDigit = true) (ht : ∀ x ∈ tail, x.isDigit = true) :
    matchM (fuel + 1) (.backref gid) line st = some [] ∧
    parse ('\\' :: c :: tail) = some (.ok (.backref (digitsVal (c :: tail)))) := by
  constructor
  · simp [matchM, h]
  · exact parse_backref_ok c tail hc ht

/-- Witness for Claim C7: an unbound backreference `\1` against "a" with an
empty capture environment, and the two-digit backreference pattern `\42`. -/
theorem C7_witness :
    matchM (5 + 1) (.backref 1) ['a'] ⟨0, []⟩ = some [] ∧
    parse ['\\', '4', '2'] = some (.ok (.backref 42)) :=
  C7_theorem 5 1 ['a'] ⟨0, []⟩ '4' ['2'] rfl rfl (by decide)

/-- Claim C9 (confirmed): whenever compilation of the pattern fails with a
`ValueError`, `match_pattern` catches it and returns `False` for every
input line — the failure never propagates to the caller. -/
theorem C9_theorem (pat line : List Char) (mfuel : Nat) (e : String)
    (h : parse pat = some (.error e)) :
    match_pattern mfuel line pat = some false := by
  simp [match_pattern, h]

/-- Witness for Claim C9: the malformed pattern `(a` (unclosed group)
against the line "x". -/
theorem C9_witness : match_pattern 3 ['x'] ['(', 'a'] = some false :=
  C9_theorem ['(', 'a'] ['x'] 3 "Expected closing parenthesis ')'" rfl

/-- Claim C10 (confirmed): `parse_factor` accepts `*` (absent from the
documented syntax) after any atom, wrapping it in a `StarMatcher`
(zero-or-more); concretely `ab*c` compiles and matches both "ac" and
"abbc". -/
theorem C10_theorem :
    (∀ (pa : List Char → Nat → PRes) (inp : List Char) (g : Nat)
        (m : Matcher) (rest : List Char) (g2 : Nat),
        pa inp g = some (.ok (m, '*' :: rest, g2)) →
        parseFactorF pa inp g = some (.ok (.star m, rest, g2))) ∧
    parse ['a', 'b', '*', 'c'] =
      some (.ok (.seq [.lit 'a', .star (.lit 'b'), .lit 'c'])) ∧
    match_pattern 30 ['a', 'c'] ['a', 'b', '*', 'c'] = some true ∧
    match_pattern 30 ['a', 'b', 'b', 'c'] ['a', 'b', '*', 'c'] = some true := by
  refine ⟨?_, rfl, rfl, rfl⟩
  intro pa inp g m rest g2 h
  simp [parseFactorF, h]

/-- Witness for Claim C10: the factor `a*`, whose atom is the literal `a`
followed directly by `*`. -/
theorem C10_witness :
    parseFactorF (parseAtomF (parseExpression 5)) ['a', '*'] 1 =
      some (.ok (.star (.lit 'a'), [], 1)) :=
  C10_theorem.1 (parseAtomF (parseExpression 5)) ['a', '*'] 1 (.lit 'a') [] 1 rfl

end Grep
